import Mathlib

/-!
Verification development for the play-by-play canonicalization and merge
engine of the scrapernhl repository.

The development shallowly embeds the two cleaning pipelines:

* family A — `clean_pbp` in `scrapernhl/qmjhl/scrapers/games.py`
  (period resolution, gap filling, elapsed time, canonical sort,
  running scores, and the `nhlify` shot+goal merge), and
* family B — `flatten_ahl_pwhl_event`, `clean_ahl_pwhl` and
  `_nhlify_ahl_pwhl` in `scrapernhl/core/ahl_pwhl_clean.py`,

together with the coordinate transforms of both families and the top-level
response-shape handling of `scrape_game` in `scrapernhl/core/hockeytech.py`.

Pandas dataframes are modelled as lists of records.  Each record carries
`label`, the pandas index label: `clean_pbp` never resets the index after
sorting, so label-based access (`df.at[idx + 1, col]`) and position-based
reasoning genuinely differ there, and the embedding keeps both notions.
Missing cells (`None`/`NaN`/`pd.NA`) are `Option.none`.  Numeric cells are
modelled as `ℤ`: the feed's periods, clock seconds, flags, ids and raw
coordinates are integers, and every cell-level operation of the pipeline
(comparison, `min`/`clip`, `+`, `*`) restricted to integers agrees with
its float counterpart.  The transcendental coordinate transforms are
modelled over `ℝ` separately, with `ℚ`-valued inputs.

`sort_values(..., kind="mergesort")` is a stable sort by a total preorder
key; a stable sort's output is uniquely determined by the comparator, so
it is embedded as a structurally recursive stable insertion sort, which
computes the same list.
-/

namespace ScraperNHL

/-! ### A stable sort -/

/-- Insert `a` before the first element `b` with `le a b`; with a total
preorder this places `a` before every later-listed element of equal key,
which is exactly stable-sort order for an element that originally preceded
the list's elements. -/
def stableInsert {α : Type} (le : α → α → Bool) (a : α) : List α → List α
  | [] => [a]
  | b :: bs => if le a b then a :: b :: bs else b :: stableInsert le a bs

/-- Stable sort by a boolean total preorder `le` — the unique output of
any stable sorting algorithm with this comparator, in particular of
pandas' `kind="mergesort"`. -/
def stableSort {α : Type} (le : α → α → Bool) : List α → List α
  | [] => []
  | x :: xs => stableInsert le x (stableSort le xs)

/-! ### Family A — `qmjhl/scrapers/games.py`, `clean_pbp` -/

/-- A raw cell of the `period` / `period_id` columns as decoded from the
feed: either missing (`None`/`NaN`), a string label, or a number. -/
inductive RawPeriod where
  | null
  | str (s : String)
  | num (z : ℤ)
deriving DecidableEq

/-- Family-A input record, as `clean_pbp` sees it after the adapter has run
(only the columns used by the verified claims are modelled).  `period` and
`period_id` are raw cells; `s` is the seconds-within-period column; `home`
is the home-team flag; `goalieId` and `event_detail` stand for the payload
columns the merge step may copy. -/
structure RowA where
  game_id : Nat
  event : String
  period : RawPeriod
  period_id : RawPeriod
  s : Option ℤ
  home : Option ℤ
  x_location : Option ℤ
  y_location : Option ℤ
  goalieId : Option ℤ
  event_detail : Option String
deriving DecidableEq

/-- Family-A working record: one row of the dataframe while `clean_pbp`
runs.  `label` is the pandas index label (the original position; never
reset before the merge step), `orderIdx` is the column assigned from
`np.arange(len(df))` on entry. -/
structure WRow where
  label : Nat
  orderIdx : Nat
  game_id : Nat
  event : String
  period : Option ℤ
  s : Option ℤ
  home : Option ℤ
  x_location : Option ℤ
  y_location : Option ℤ
  elapsedTime : Option ℤ
  score_home : Nat
  score_away : Nat
  goalieId : Option ℤ
  event_detail : Option String
deriving DecidableEq

/-- Adjacent occurrence of `'O','T'` in a character list. -/
def hasOTChars : List Char → Bool
  | 'O' :: 'T' :: _ => true
  | _ :: rest => hasOTChars rest
  | [] => false

/-- Python `"OT" in p` for a string `p`: substring test. -/
def containsOT (s : String) : Bool := hasOTChars s.toList

/-- Value of an all-digit character run (with accumulator). -/
def digitsValGo (acc : Nat) : List Char → Option Nat
  | [] => some acc
  | c :: cs => if c.isDigit then digitsValGo (acc * 10 + (c.toNat - 48)) cs else none

/-- Integer-literal parse of a string, `none` on anything else — the
integer fragment of `pd.to_numeric(errors="coerce")` (the feed's period
cells are small integers or non-numeric labels). -/
def strInt? (s : String) : Option ℤ :=
  match s.toList with
  | [] => none
  | '-' :: cs =>
      match cs with
      | [] => none
      | _ => (digitsValGo 0 cs).map (fun n => -(n : ℤ))
  | cs => (digitsValGo 0 cs).map (fun n => (n : ℤ))

/-- Penalty-period extraction `df.loc[m_pen, "period"].str.extract(r"(\d+)")` followed by
`pd.to_numeric` (games.py line 331): the first maximal digit run of a
string cell, as a number.  The `.str` accessor yields `NaN` on non-string
cells, so numeric and null cells extract to null. -/
def penaltyPeriod : RawPeriod → RawPeriod
  | .str s =>
      let run := (s.toList.dropWhile (fun c => !c.isDigit)).takeWhile (·.isDigit)
      match run with
      | [] => .null
      | _ =>
          match digitsValGo 0 run with
          | some n => .num n
          | none => .null
  | _ => .null

/-- The raw `period` cell of a row at games.py line 424, i.e. after the
penalty-row digit extraction has already mutated the column. -/
def rawPeriodAfterPenalty (r : RowA) : RawPeriod :=
  if r.event = "penalty" then penaltyPeriod r.period else r.period

/-- games.py lines 424-425: `has_playoff_OT` is true when any value of the
whole frame's `period` column is a string containing `"OT"`. -/
def hasOTLabel (rows : List RowA) : Bool :=
  rows.any fun r =>
    match rawPeriodAfterPenalty r with
    | .str s => containsOT s
    | _ => false

/-- games.py lines 427-428: the textual overtime labels, in order. -/
def otLabels : List String :=
  ["1st OT", "2nd OT", "3rd OT", "4th OT", "5th OT",
   "6th OT", "7th OT", "8th OT", "9th OT"]

/-- games.py lines 427-428: `df["period"].replace({"1st OT": 4, ...})` —
exact-match replacement of the OT labels by 4..12. -/
def otReplace : RawPeriod → RawPeriod
  | .str s =>
      match otLabels.indexOf? s with
      | some k => .num ((k : ℤ) + 4)
      | none => .str s
  | p => p

/-- Coercion `pd.to_numeric(errors="coerce")` on a raw cell. -/
def toNumericCell : RawPeriod → Option ℤ
  | .null => none
  | .num z => some z
  | .str s => strInt? s

/-- The fully coerced numeric period of a row before gap filling:
penalty-row digit extraction (line 331), OT replacement (427-428), the
`period_id` fallback where the label is null (431-436), then
`pd.to_numeric(errors="coerce")` (line 438). -/
def coercedPeriod (r : RowA) : Option ℤ :=
  let p1 := otReplace (rawPeriodAfterPenalty r)
  let p2 := if p1 = RawPeriod.null then r.period_id else p1
  toNumericCell p2

/-- Entry of `clean_pbp`: attach `orderIdx = np.arange(len(df))` (line 190)
and the pandas index label, and run the per-row period coercion. -/
def initA (rows : List RowA) : List WRow :=
  rows.enum.map fun p =>
    { label := p.1
      orderIdx := p.1
      game_id := p.2.game_id
      event := p.2.event
      period := coercedPeriod p.2
      s := p.2.s
      home := p.2.home
      x_location := p.2.x_location
      y_location := p.2.y_location
      elapsedTime := none
      score_home := 0
      score_away := 0
      goalieId := p.2.goalieId
      event_detail := p.2.event_detail }

/-- Most recent period recorded for a game in the forward-fill state. -/
def lookupGame (st : List (Nat × ℤ)) (g : Nat) : Option ℤ :=
  (st.find? (fun p => p.1 = g)).map (·.2)

/-- Forward fill `df.loc[~m_so_event].groupby("game_id")["period"].ffill()` (games.py
line 445/448): forward fill of null periods per game over the subsequence
of non-shootout rows; shootout rows are untouched and are not fill
sources. -/
def ffillA (st : List (Nat × ℤ)) : List WRow → List WRow
  | [] => []
  | r :: rs =>
    if r.event = "shootout" then r :: ffillA st rs
    else
      match r.period with
      | some p => r :: ffillA ((r.game_id, p) :: st) rs
      | none =>
          match lookupGame st r.game_id with
          | some p => { r with period := some p } :: ffillA st rs
          | none => r :: ffillA st rs

/-- Period of the first non-shootout row of a list (the next backward-fill
source). -/
def firstNonSOPeriod : List WRow → Option ℤ
  | [] => none
  | r :: rs => if r.event = "shootout" then firstNonSOPeriod rs else r.period

/-- Backward fill `.bfill()` on the forward-filled series (games.py line 445/448): the
series being back-filled is the whole non-shootout subsequence of the
frame — a plain `Series.bfill`, so the fill crosses game boundaries. -/
def bfillA : List WRow → List WRow
  | [] => []
  | r :: rs =>
    let rest := bfillA rs
    if r.event = "shootout" then r :: rest
    else
      match r.period with
      | some _ => r :: rest
      | none => { r with period := firstNonSOPeriod rest } :: rest

/-- Sentinel `.fillna(5)` (games.py line 448), applied to non-shootout rows only
when the frame has no OT labels. -/
def sentinelFill (rows : List WRow) : List WRow :=
  rows.map fun r =>
    if r.event ≠ "shootout" ∧ r.period = none then { r with period := some 5 } else r

/-- games.py lines 440-448: the whole period gap-filling step. -/
def periodFillA (hasOT : Bool) (rows : List WRow) : List WRow :=
  let filled := bfillA (ffillA [] rows)
  if hasOT then filled else sentinelFill filled

/-- Declarative value of the per-game forward fill at position `i` for
game `g`: the last non-null period among the non-shootout rows of game `g`
at or before `i` (the row's own value first). -/
def ffScan (l : List WRow) (i : Nat) (g : Nat) : Option ℤ :=
  ((l.take (i+1)).reverse.filterMap fun r' =>
      if r'.game_id = g ∧ r'.event ≠ "shootout" then r'.period else none).head?

/-- Declarative value of the backward fill source strictly after position
`i`: the first non-null forward-filled period among the LATER non-shootout
rows — of any game, because the `.bfill()` of games.py line 445/448 runs
on the whole frame's non-shootout series. -/
def firstFFafter (l : List WRow) (i : Nat) : Option ℤ :=
  (((List.range l.length).drop (i+1)).filterMap fun j =>
      match l[j]? with
      | some r' => if r'.event ≠ "shootout" then ffScan l j r'.game_id else none
      | none => none).head?

/-- Declarative period of row `r = l[i]` after the whole gap-filling step:
shootout rows keep their own coerced period; other rows take the forward
fill, then the frame-global backward fill, then — only when the frame has
no OT labels — the shootout sentinel 5. -/
def specPeriod (hasOT : Bool) (l : List WRow) (i : Nat) (r : WRow) : Option ℤ :=
  if r.event = "shootout" then r.period
  else
    match Option.or (ffScan l i r.game_id) (firstFFafter l i) with
    | some p => some p
    | none => if hasOT then none else some 5

/-- First non-null period among the non-shootout rows of a list. -/
def firstSomeNonSO (l : List WRow) : Option ℤ :=
  (l.filterMap fun r => if r.event ≠ "shootout" then r.period else none).head?

/-- games.py lines 451-452:
`df.loc[df["period"].notnull(), "elapsedTime"] = df["s"] + (df["period"] - 1).clip(upper=4) * 20 * 60`. -/
def elapsedA (r : WRow) : WRow :=
  match r.period with
  | some p => { r with elapsedTime := r.s.map (fun sv => sv + min (p - 1) 4 * 1200) }
  | none => r

/-- Null cells (`none`, i.e. `NaN`) sort last (`WithTop` top). -/
def optTop {α : Type} (o : Option α) : WithTop α := o.elim ⊤ (fun a => (a : WithTop α))

/-- The sort key of games.py lines 455/498: `(game_id, elapsedTime,
orderIdx)` with nulls last. -/
def sortKeyA (r : WRow) : Lex (Nat × Lex ((WithTop ℤ) × Nat)) :=
  toLex (r.game_id, toLex (optTop r.elapsedTime, r.orderIdx))

/-- Boolean comparison used for the stable `kind="mergesort"` sorts. -/
def leKeyA (a b : WRow) : Bool := decide (sortKeyA a ≤ sortKeyA b)

/-- Sort `df.sort_values(["game_id", "elapsedTime", "orderIdx"], kind="mergesort")`. -/
def sortA (rows : List WRow) : List WRow := stableSort leKeyA rows

/-- Running (home, away) goal counts per game in the score state. -/
def lookupScore (st : List (Nat × Nat × Nat)) (g : Nat) : Nat × Nat :=
  ((st.find? (fun p => p.1 = g)).map (·.2)).getD (0, 0)

/-- The home-goal indicator of games.py line 462 for game `g`:
`m_goal & home.eq(1)`. -/
def isHomeGoal (g : Nat) (r : WRow) : Bool :=
  decide (r.game_id = g) && decide (r.event = "goal") && decide (r.home = some 1)

/-- The away-goal indicator of games.py line 463 for game `g`:
`m_goal & home.eq(0)`. -/
def isAwayGoal (g : Nat) (r : WRow) : Bool :=
  decide (r.game_id = g) && decide (r.event = "goal") && decide (r.home = some 0)

/-- Number of home goals of game `g` in a row sequence. -/
def countHomeGoals (g : Nat) (l : List WRow) : Nat := l.countP (isHomeGoal g)

/-- Number of away goals of game `g` in a row sequence. -/
def countAwayGoals (g : Nat) (l : List WRow) : Nat := l.countP (isAwayGoal g)

/-- games.py lines 458-467: per-game cumulative sums of the home-goal and
away-goal indicators, inclusive of the current row. -/
def scoreGo (st : List (Nat × Nat × Nat)) : List WRow → List WRow
  | [] => []
  | r :: rs =>
    let prev := lookupScore st r.game_id
    let h := prev.1 + (if isHomeGoal r.game_id r then 1 else 0)
    let a := prev.2 + (if isAwayGoal r.game_id r then 1 else 0)
    { r with score_home := h, score_away := a } :: scoreGo ((r.game_id, h, a) :: st) rs

/-- The score step applied to the temporally sorted frame. -/
def scoreA (rows : List WRow) : List WRow := scoreGo [] rows

/-- Mask `df["event"].isin(["shot", "penaltyshot"])`. -/
def isShotEventA (e : String) : Bool := e = "shot" || e = "penaltyshot"

/-- Companion of `df.groupby("game_id")["event"].shift(-1)`: the next row of
the same game after position `i` in the current frame order. -/
def nextSameGame (l : List WRow) (i : Nat) : Option WRow :=
  (l[i]?).bind fun r => (l.drop (i + 1)).find? (fun r' => r'.game_id = r.game_id)

/-- games.py lines 509-513: the merge mask `m_shot_before_goal` at
position `i` — the row is a shot/penalty-shot, the next row of the same
game is a goal, and both have equal non-null `elapsedTime` (a `NaN`
compares unequal to everything). -/
def mergeMaskA (l : List WRow) (i : Nat) : Bool :=
  match l[i]?, nextSameGame l i with
  | some r, some r' =>
      isShotEventA r.event && (r'.event = "goal") &&
        (match r.elapsedTime, r'.elapsedTime with
         | some t, some t' => t = t'
         | _, _ => false)
  | _, _ => false

/-- Index labels of the masked rows, in frame order (games.py line 517:
`shot_indices = df[m_shot_before_goal].index`). -/
def maskedLabelsA (l : List WRow) : List Nat :=
  (List.range l.length).filterMap fun i =>
    if mergeMaskA l i then (l[i]?).map (·.label) else none

/-- games.py lines 518-523: `goal_indices = shot_indices + 1` — LABEL
arithmetic on the pandas index, clipped to `goal_indices < len(df)`.  The
copy pairs are `(donor label, donor label + 1)`. -/
def mergePairsA (l : List WRow) : List (Nat × Nat) :=
  (maskedLabelsA l).filterMap fun lab =>
    if lab + 1 < l.length then some (lab, lab + 1) else none

/-- Cell copy based on `pd.isna` (games.py lines 536-555 for non-string
cells; ahl_pwhl_clean.py lines 189-193): a `None`/`NaN` destination cell
takes the source cell's value when the latter is present. -/
def copyNa {α : Type} [DecidableEq α] (dst src : Option α) : Option α :=
  if dst = none ∧ src ≠ none then src else dst

/-- A string cell counts as missing when it is null or empty (games.py
lines 538-551 treat `''` as absent on both sides). -/
def strIsNa (v : Option String) : Bool := v = none || v = some ""

/-- Cell copy for a family-A string column. -/
def copyCellStr (dst src : Option String) : Option String :=
  if strIsNa dst ∧ ¬ strIsNa src then src else dst

/-- games.py lines 526-555: copy every column except `game_id`, `event`,
`orderIdx` (and the helper columns) from the shot row into the goal row
wherever the goal cell is missing and the shot cell is not.  `score_home`
and `score_away` are checked too but are never-null integers, so the copy
never fires on them. -/
def copyRowA (dst src : WRow) : WRow :=
  { dst with
    period := copyNa dst.period src.period
    s := copyNa dst.s src.s
    home := copyNa dst.home src.home
    x_location := copyNa dst.x_location src.x_location
    y_location := copyNa dst.y_location src.y_location
    elapsedTime := copyNa dst.elapsedTime src.elapsedTime
    goalieId := copyNa dst.goalieId src.goalieId
    event_detail := copyCellStr dst.event_detail src.event_detail }

/-- One iteration of the copy loop (games.py lines 530-555): both the
donor and the target row are addressed BY LABEL in the current frame
state, so earlier copies are visible to later ones. -/
def applyCopyA (l : List WRow) (p : Nat × Nat) : List WRow :=
  match l.find? (fun r => r.label = p.1) with
  | none => l
  | some src => l.map fun r => if r.label = p.2 then copyRowA r src else r

/-- games.py lines 503-568: the whole `nhlify` merge step — compute the
mask and the label pairs, run the copy loop, drop the masked donor rows
(`df = df[~m_shot_before_goal]`), reset the index and reassign
`orderIdx = np.arange(len(df))`. -/
def nhlifyA (l : List WRow) : List WRow :=
  let ms := maskedLabelsA l
  let ps := mergePairsA l
  let l' := ps.foldl applyCopyA l
  let kept := l'.filter (fun r => !(ms.contains r.label))
  kept.enum.map fun p => { p.2 with label := p.1, orderIdx := p.1 }

/-- games.py up to line 498: period resolution and gap filling, elapsed
time, the canonical sort, running scores, and the repeated sort — the
pre-merge canonical sequence. -/
def preMergeA (rows : List RowA) : List WRow :=
  sortA (scoreA (sortA ((periodFillA (hasOTLabel rows) (initA rows)).map elapsedA)))

/-- The function `clean_pbp` restricted to the modelled columns (the trailing id-column
`pd.to_numeric` of line 574 is the identity on the already-numeric
modelled columns, and `scrapeOn`/`orderIdx` dropping does not affect the
modelled record). -/
def clean_pbp (rows : List RowA) (nhlify : Bool) : List WRow :=
  let pre := preMergeA rows
  if nhlify then nhlifyA pre else pre

/-! ### Family B — `ahl_pwhl_clean.py` -/

/-- The `details["period"]` sub-object of a family-B event: absent
(`details.get("period", {})` yields `{}`), a dict with an optional `"id"`
entry, or present but not a dict (then `flatten_ahl_pwhl_event` sets no
`period` key at all). -/
inductive BPeriodField where
  | absent
  | dict (id : Option RawPeriod)
  | nonDict
deriving DecidableEq

/-- Python `str()` of a scalar cell, as used by
`str(period_obj.get("id", "1"))`. -/
def pyStr : RawPeriod → String
  | .null => "None"
  | .str s => s
  | .num z => toString z

/-- A raw family-B event (`{event, details:{...}}`), restricted to the
modelled `details` entries. -/
structure BEvent where
  event : Option String
  period : BPeriodField
  time : Option ℤ
  shooterTeamId : Option ℤ
  team_id : Option ℤ
  xLocation : Option ℤ
  yLocation : Option ℤ
  shotType : Option String
  shotQuality : Option String
  isGoal : Option Bool
deriving DecidableEq

/-- The flat record produced by `flatten_ahl_pwhl_event` (modelled
columns).  `periodStr = none` means the `period` KEY is absent from the
record — the only conditionally-set modelled key. -/
structure FlatB where
  event : Option String
  periodStr : Option String
  elapsedTime : Option ℤ
  team_id : Option ℤ
  x_location : Option ℤ
  y_location : Option ℤ
  shot_type : Option String
  shot_quality_description : Option String
  is_goal : Option Bool
deriving DecidableEq

/-- Python `a or b` on optional numeric cells: `a` unless `a` is `None` or
falsy (`0`). -/
def pyOr (a b : Option ℤ) : Option ℤ :=
  match a with
  | some v => if v = 0 then b else some v
  | none => b

/-- ahl_pwhl_clean.py lines 33-81: flatten one event.  The `period` key is
set only when `details["period"]` is a dict (or absent, which defaults to
`{}`), via `str(period_obj.get("id", "1"))`. -/
def flatten_ahl_pwhl_event (e : BEvent) : FlatB :=
  { event := e.event
    periodStr :=
      match e.period with
      | .absent => some "1"
      | .dict none => some "1"
      | .dict (some v) => some (pyStr v)
      | .nonDict => none
    elapsedTime := e.time
    team_id := pyOr e.shooterTeamId e.team_id
    x_location := e.xLocation
    y_location := e.yLocation
    shot_type := e.shotType
    shot_quality_description := e.shotQuality
    is_goal := e.isGoal }

/-- A family-B dataframe row inside `clean_ahl_pwhl` (modelled columns).
`label` is the pandas index label; `period` is the numeric period column
written by lines 141-143 (`none` when the `period` column is absent from
the frame). -/
structure BRow where
  label : Nat
  orderIdx : Nat
  game_id : Nat
  event : Option String
  periodStr : Option String
  period : Option ℤ
  elapsedTime : Option ℤ
  team_id : Option ℤ
  x_location : Option ℤ
  y_location : Option ℤ
  shot_type : Option String
  shot_quality_description : Option String
  quality : Option ℤ
  is_goal : Option Bool
deriving DecidableEq

/-- ahl_pwhl_clean.py lines 134-138: the shot-quality code map; unmapped
descriptions become `NaN`. -/
def qualityMap : Option String → Option ℤ
  | some "Quality on net" => some 3
  | some "Standard" => some 2
  | some "Not on net" => some 1
  | _ => none

/-- ahl_pwhl_clean.py line 143:
`pd.to_numeric(df["period"], errors="coerce").fillna(1).astype(int)` on
one cell (integer-literal numerals; a missing key is `NaN`, hence 1). -/
def toNumericB (o : Option String) : ℤ := (o.bind strInt?).getD 1

/-- The `_nhlify_ahl_pwhl` sort key of line 171:
`(period, elapsedTime, orderIdx)`, nulls last. -/
def sortKeyB (r : BRow) : Lex ((WithTop ℤ) × Lex ((WithTop ℤ) × Nat)) :=
  toLex (optTop r.period, toLex (optTop r.elapsedTime, r.orderIdx))

/-- Boolean comparison for the family-B stable sort. -/
def leKeyB (a b : BRow) : Bool := decide (sortKeyB a ≤ sortKeyB b)

/-- Lines 186-193: copy the `shot_cols` (modelled subset) from the shot
row into the goal row wherever the goal cell is `NaN` and the shot cell is
not (`pd.isna`-based — no empty-string special case, unlike family A). -/
def copyRowB (dst src : BRow) : BRow :=
  { dst with
    x_location := copyNa dst.x_location src.x_location
    y_location := copyNa dst.y_location src.y_location
    shot_type := copyNa dst.shot_type src.shot_type
    shot_quality_description :=
      copyNa dst.shot_quality_description src.shot_quality_description
    quality := copyNa dst.quality src.quality }

/-- The merge mask of lines 175-179 at position `i` of the sorted,
reindexed frame: a shot row whose NEXT row (plain `shift(-1)`) is a goal
at an equal non-null `elapsedTime`. -/
def mergeMaskB (l : List BRow) (i : Nat) : Bool :=
  match l[i]?, l[i + 1]? with
  | some r, some r' =>
      (r.event = some "shot") && (r'.event = some "goal") &&
        (match r.elapsedTime, r'.elapsedTime with
         | some t, some t' => t = t'
         | _, _ => false)
  | _, _ => false

/-- One iteration of the copy loop of lines 189-193: positions are index
labels here because of the `reset_index(drop=True)` at line 171. -/
def applyCopyB (l : List BRow) (p : Nat × Nat) : List BRow :=
  match l[p.1]? with
  | none => l
  | some src => l.enum.map fun q => if q.1 = p.2 then copyRowB q.2 src else q.2

/-- ahl_pwhl_clean.py lines 152-201: `_nhlify_ahl_pwhl`.  With no separate
goal events, rows with `is_goal == True` are retyped to `"goal"` (lines
164-166).  Otherwise sort by `(period, elapsedTime, orderIdx)`, reset the
index, merge adjacent shot+goal pairs at equal times, and drop the donor
shot rows. -/
def nhlify_ahl_pwhl (l : List BRow) : List BRow :=
  let hasGoal := l.any (fun r => r.event = some "goal")
  if hasGoal then
    let s := ((stableSort leKeyB l).enum.map fun p => { p.2 with label := p.1 })
    let ps := (List.range s.length).filterMap fun i =>
      if mergeMaskB s i ∧ i + 1 < s.length then some (i, i + 1) else none
    let s' := ps.foldl applyCopyB s
    let kept := (s'.enum.filter fun p => !(mergeMaskB s p.1)).map (·.2)
    kept.enum.map fun p => { p.2 with label := p.1 }
  else
    l.map fun r => if r.is_goal = some true then { r with event := some "goal" } else r

/-- One flattened event as a dataframe row at position `i` (with the
`game_id` column restored, lines 108-115). -/
def mkBRow (game_id : Nat) (p : Nat × BEvent) : BRow :=
  let f := flatten_ahl_pwhl_event p.2
  { label := p.1, orderIdx := p.1, game_id := game_id
    event := f.event, periodStr := f.periodStr, period := none
    elapsedTime := f.elapsedTime, team_id := f.team_id
    x_location := f.x_location, y_location := f.y_location
    shot_type := f.shot_type
    shot_quality_description := f.shot_quality_description
    quality := none, is_goal := f.is_goal }

/-- ahl_pwhl_clean.py lines 133-139: write the `quality` column. -/
def setQuality (r : BRow) : BRow := { r with quality := qualityMap r.shot_quality_description }

/-- ahl_pwhl_clean.py lines 141-143: overwrite `period` with its numeric
coercion. -/
def setPeriodNum (r : BRow) : BRow := { r with period := some (toNumericB r.periodStr) }

/-- ahl_pwhl_clean.py lines 84-149: `clean_ahl_pwhl` restricted to the
modelled columns — flatten, `orderIdx = np.arange(len(df))`, the
shot-quality map, the numeric period conversion (only when the `period`
column exists in the flattened frame), then optionally the merge.  The
coordinate columns are modelled separately over `ℝ`. -/
def clean_ahl_pwhl (events : List BEvent) (game_id : Nat) (nhlify : Bool) : List BRow :=
  let rows : List BRow := events.enum.map (mkBRow game_id)
  let hasPeriodCol := rows.any (·.periodStr.isSome)
  let rows := rows.map setQuality
  let rows := if hasPeriodCol then rows.map setPeriodNum else rows
  if nhlify then nhlify_ahl_pwhl rows else rows

/-! ### Coordinate transforms (families A and B) -/

/-- Two-argument arctangent `np.arctan2 y x` (result in `(-π, π]`). -/
noncomputable def atan2 (y x : ℝ) : ℝ :=
  if 0 < x then Real.arctan (y / x)
  else if x < 0 then
    (if 0 ≤ y then Real.arctan (y / x) + Real.pi else Real.arctan (y / x) - Real.pi)
  else if 0 < y then Real.pi / 2
  else if y < 0 then -(Real.pi / 2)
  else 0

/-- Radian-to-degree conversion `np.degrees`. -/
noncomputable def degrees (t : ℝ) : ℝ := t * (180 / Real.pi)

/-- Rounding `.round(2)` to two decimals.  (`np.round` rounds half to even
while `round` rounds half up; the two differ only at exact half-ulp
points, which none of the proved bounds depend on.) -/
noncomputable def round2 (t : ℝ) : ℝ := ((round (100 * t) : ℤ) : ℝ) / 100

/-- games.py lines 473-489: the family-A coordinate transform.  On the
600×300 half-rink plane, home rows mirror x; distance and angle are taken
to the fixed goal point `(600, 150)` in the mirrored frame.  Null inputs
propagate to null outputs (`NaN` arithmetic).  Returns
`(shot_distance_ft, shot_angle_deg)`. -/
noncomputable def faCoordDerived (home x_location y_location : Option ℚ) :
    Option ℝ × Option ℝ :=
  match x_location, y_location with
  | some x0, some y0 =>
      let xn : ℝ := if home = some 1 then 600 - (x0 : ℝ) else (x0 : ℝ)
      let dx : ℝ := 600 - xn
      let dy : ℝ := 150 - (y0 : ℝ)
      (some (Real.sqrt (dx ^ 2 + dy ^ 2) / 3), some |degrees (atan2 dy dx)|)
  | _, _ => (none, none)

/-- ahl_pwhl_clean.py lines 118-130: the family-B coordinate transform.
Pixel coordinates on an ~850×400 canvas map to a 200×85 ft rink; the
normalized coordinates subtract the rink-center offsets `(100, 42.5)`.
Null inputs propagate to null outputs.  Returns
`(shot_distance_ft, shot_angle_deg)`. -/
noncomputable def fbCoordDerived (x_location y_location : Option ℚ) :
    Option ℝ × Option ℝ :=
  match x_location, y_location with
  | some xp, some yp =>
      let x : ℝ := round2 ((xp : ℝ) / 850 * 200)
      let y : ℝ := round2 ((yp : ℝ) / 400 * 85)
      let xn : ℝ := x - 100
      let yn : ℝ := y - 42.5
      (some (round2 (Real.sqrt (xn ^ 2 + yn ^ 2))),
       some (round2 (degrees (atan2 |yn| |xn|))))
  | _, _ => (none, none)

/-! ### Top-level response shape handling (`core/hockeytech.py`) -/

/-- A decoded top-level JSON value, abstracted to its shape (list, dict
with/without a `"GC"` key, null, or a bare scalar). -/
inductive PyTop where
  | listv (n : Nat)
  | dictv (hasGC : Bool)
  | nullv
  | strv (s : String)
  | numv (z : ℤ)
deriving DecidableEq

/-- The exception classes relevant to the top-level shape handling.
`parsingError` is `scrapernhl.exceptions.ParsingError` — defined in the
repository but raised nowhere. -/
inductive PyExc where
  | parsingError
  | keyError
  | typeError
  | valueError
deriving DecidableEq

def PyTop.isList : PyTop → Bool
  | .listv _ => true
  | _ => false

def PyTop.isDict : PyTop → Bool
  | .dictv _ => true
  | _ => false

/-- hockeytech.py, `scrape_game` for a `gc`-feed league (lines 143-145,
155-158, 194-208): `data["GC"]["Pxpverbose"]` raises `TypeError` on a
non-dict (a `list`/`str`/`float`/`None` subscripted with a string), which
the `except (KeyError, json.JSONDecodeError)` handler does not catch; a
dict without the key raises `KeyError`, re-raised as `KeyError`.  The
`ok` result abstracts "the shape was accepted and cleaning proceeds". -/
def scrape_game_gc (d : PyTop) : Except PyExc Unit :=
  match d with
  | .dictv true => .ok ()
  | .dictv false => .error .keyError
  | .listv _ => .error .typeError
  | .nullv => .error .typeError
  | .strv _ => .error .typeError
  | .numv _ => .error .typeError

/-- hockeytech.py, `scrape_game` for a `statviewfeed` league (lines
146-148, 194-208): the decoded value is returned unchanged and handed to
`pd.DataFrame`.  A bare scalar makes the `DataFrame` constructor raise
`ValueError`; `None` yields an empty frame whose cleaning fails with
`KeyError` on the missing `event` column.  Lists and dicts are accepted
shapes. -/
def scrape_game_statview (d : PyTop) : Except PyExc Unit :=
  match d with
  | .listv _ => .ok ()
  | .dictv _ => .ok ()
  | .nullv => .error .keyError
  | .strv _ => .error .valueError
  | .numv _ => .error .valueError

/-! ### Concrete inputs used by witnesses and counterexamples -/

/-- Family-A row builder for concrete inputs. -/
def mkA (gid : Nat) (ev : String) (per : RawPeriod) (sv : Option ℤ) (gl : Option ℤ) : RowA :=
  { game_id := gid, event := ev, period := per, period_id := .null, s := sv
    home := some 1, x_location := none, y_location := none
    goalieId := gl, event_detail := none }

/-- Default family-A working row (for `getD` projections). -/
def defWRow : WRow :=
  { label := 0, orderIdx := 0, game_id := 0, event := "", period := none
    s := none, home := none, x_location := none, y_location := none
    elapsedTime := none, score_home := 0, score_away := 0
    goalieId := none, event_detail := none }

/-- Input exhibiting the mislabeled merge copy: a shot at t=30 carrying
`goalieId 99`, a filler hit at t=10, then the goal at t=30.  After the
canonical sort the shot's sorted successor is the goal, but index label
`shot+1` is the hit row. -/
def c1rows : List RowA :=
  [mkA 7 "shot" (.str "1") (some 30) (some 99),
   mkA 7 "hit" (.str "1") (some 10) none,
   mkA 7 "goal" (.str "1") (some 30) none]

/-- Input exhibiting a cascading merge: two shot+goal pairs interleaved in
input order so that the first shot's label successor is the second shot. -/
def c3rows : List RowA :=
  [mkA 9 "shot" (.str "1") (some 10) (some 99),
   mkA 9 "shot" (.str "1") (some 20) none,
   mkA 9 "goal" (.str "1") (some 10) none,
   mkA 9 "goal" (.str "1") (some 20) none]

/-- A period-2 shot with `s = 30` (spec Scenario A's timing). -/
def c5row : RowA := mkA 3 "shot" (.str "2") (some 30) none

/-- Two-game frame: game 2 carries a `"1st OT"` label (setting the
frame-global OT flag), followed by game 1 whose periods are all null and
which contains no OT labels. -/
def c6rows : List RowA :=
  [mkA 2 "hit" (.str "1st OT") (some 0) none,
   mkA 1 "hit" .null (some 5) none,
   mkA 1 "hit" .null (some 8) none]

/-- Family-B event builder for concrete inputs. -/
def mkB (ev : Option String) (t : Option ℤ) : BEvent :=
  { event := ev, period := .absent, time := t, shooterTeamId := none
    team_id := none, xLocation := none, yLocation := none
    shotType := none, shotQuality := none, isGoal := none }

/-- Default family-B row (for `getD` projections). -/
def defBRow : BRow :=
  { label := 0, orderIdx := 0, game_id := 0, event := none, periodStr := none
    period := none, elapsedTime := none, team_id := none, x_location := none
    y_location := none, shot_type := none, shot_quality_description := none
    quality := none, is_goal := none }

/-- A family-B frame whose events arrive out of time order and contain no
goal events: the cleaning pipeline never sorts it. -/
def c2events : List BEvent :=
  [mkB (some "hit") (some 100), mkB (some "hit") (some 30)]

/-- Spec Scenario B: a single shot event with `isGoal=true` and pixel
coordinates, no separate goal event. -/
def c8event : BEvent :=
  { event := some "shot", period := .absent, time := none, shooterTeamId := none
    team_id := none, xLocation := some 100, yLocation := some 100
    shotType := none, shotQuality := none, isGoal := some true }

/-- A family-B event whose `details["period"]` is present but null (not a
dict): flattening sets no `period` key at all. -/
def c10event : BEvent :=
  { event := some "shot", period := .nonDict, time := none, shooterTeamId := none
    team_id := none, xLocation := none, yLocation := none
    shotType := none, shotQuality := none, isGoal := none }

/-! ### Projections and counters used to state the claims -/

/-- Forget the score columns of a working row. -/
def eraseScore (r : WRow) : WRow := { r with score_home := 0, score_away := 0 }

/-- The `(period, periodStr)` projection of a family-B row — the columns
the period claims are about, untouched by sorting, relabelling and the
merge copy. -/
def projB (r : BRow) : Option ℤ × Option String := (r.period, r.periodStr)

/-! ### Stable sort lemmas -/

theorem stableInsert_perm {α : Type} (le : α → α → Bool) (a : α) (l : List α) :
    (stableInsert le a l).Perm (a :: l) := by
  induction l with
  | nil => exact List.Perm.refl _
  | cons b bs ih =>
    simp only [stableInsert]
    by_cases h : le a b
    · simp [h]
    · simp only [h, if_neg, Bool.false_eq_true, ite_false]
      exact (ih.cons b).trans (List.Perm.swap a b bs)

theorem stableSort_perm {α : Type} (le : α → α → Bool) (l : List α) :
    (stableSort le l).Perm l := by
  induction l with
  | nil => exact List.Perm.refl _
  | cons x xs ih => exact (stableInsert_perm le x (stableSort le xs)).trans (ih.cons x)

theorem mem_stableSort {α : Type} (le : α → α → Bool) {l : List α} {x : α} :
    x ∈ stableSort le l ↔ x ∈ l := (stableSort_perm le l).mem_iff

theorem pairwise_stableInsert {α : Type} {le : α → α → Bool}
    (htot : ∀ a b, (le a b || le b a) = true)
    (htr : ∀ a b c, le a b = true → le b c = true → le a c = true)
    (a : α) {l : List α} (h : l.Pairwise (fun x y => le x y = true)) :
    (stableInsert le a l).Pairwise (fun x y => le x y = true) := by
  induction l with
  | nil => simp [stableInsert]
  | cons b bs ih =>
    rw [List.pairwise_cons] at h
    simp only [stableInsert]
    by_cases hab : le a b = true
    · rw [if_pos hab]
      refine List.pairwise_cons.mpr ⟨?_, List.pairwise_cons.mpr ⟨h.1, h.2⟩⟩
      intro x hx
      rcases List.mem_cons.mp hx with rfl | hx
      · exact hab
      · exact htr a b x hab (h.1 x hx)
    · rw [if_neg hab]
      refine List.pairwise_cons.mpr ⟨?_, ih h.2⟩
      intro x hx
      have hx' : x ∈ a :: bs := (stableInsert_perm le a bs).mem_iff.mp hx
      rcases List.mem_cons.mp hx' with heq | hx'
      · rw [heq]
        have := htot a b
        simp only [Bool.or_eq_true] at this
        rcases this with h1 | h1
        · exact absurd h1 hab
        · exact h1
      · exact h.1 x hx'

theorem pairwise_stableSort {α : Type} {le : α → α → Bool}
    (htot : ∀ a b, (le a b || le b a) = true)
    (htr : ∀ a b c, le a b = true → le b c = true → le a c = true)
    (l : List α) : (stableSort le l).Pairwise (fun x y => le x y = true) := by
  induction l with
  | nil => simp [stableSort]
  | cons x xs ih => exact pairwise_stableInsert htot htr x ih

theorem stableSort_of_pairwise {α : Type} {le : α → α → Bool} {l : List α}
    (h : l.Pairwise (fun x y => le x y = true)) : stableSort le l = l := by
  induction l with
  | nil => rfl
  | cons x xs ih =>
    rw [List.pairwise_cons] at h
    simp only [stableSort, ih h.2]
    cases xs with
    | nil => rfl
    | cons y ys => simp [stableInsert, h.1 y (List.mem_cons_self y ys)]

/-! ### Sort key facts -/

theorem leKeyA_total (a b : WRow) : (leKeyA a b || leKeyA b a) = true := by
  simp only [leKeyA, Bool.or_eq_true, decide_eq_true_eq]
  exact le_total _ _

theorem leKeyA_trans (a b c : WRow) (hab : leKeyA a b = true) (hbc : leKeyA b c = true) :
    leKeyA a c = true := by
  simp only [leKeyA, decide_eq_true_eq] at *
  exact le_trans hab hbc

theorem leKeyA_tie_orderIdx {a b : WRow} (h : leKeyA a b = true)
    (hg : a.game_id = b.game_id) (ht : a.elapsedTime = b.elapsedTime) :
    a.orderIdx ≤ b.orderIdx := by
  simp only [leKeyA, decide_eq_true_eq, sortKeyA] at h
  rw [Prod.Lex.le_iff] at h
  rcases h with h | ⟨-, h⟩
  · exact absurd h (by simp [hg])
  · rw [Prod.Lex.le_iff] at h
    rcases h with h | ⟨-, h⟩
    · exact absurd h (by simp [ht])
    · exact h

/-! ### Field–preservation lemmas for the score and sort stages -/

theorem scoreGo_map_eraseScore (st : List (Nat × Nat × Nat)) (l : List WRow) :
    (scoreGo st l).map eraseScore = l.map eraseScore := by
  induction l generalizing st with
  | nil => rfl
  | cons r rs ih => simp [scoreGo, eraseScore, ih]

theorem mem_scoreGo_shape (st : List (Nat × Nat × Nat)) (l : List WRow) :
    ∀ r ∈ scoreGo st l, ∃ r₀ ∈ l,
      r.period = r₀.period ∧ r.s = r₀.s ∧ r.elapsedTime = r₀.elapsedTime := by
  induction l generalizing st with
  | nil => intro r hr; simp [scoreGo] at hr
  | cons x xs ih =>
    intro r hr
    simp only [scoreGo, List.mem_cons] at hr
    rcases hr with rfl | hr
    · exact ⟨x, List.mem_cons_self x xs, rfl, rfl, rfl⟩
    · obtain ⟨r₀, h₀, hp⟩ := ih _ r hr
      exact ⟨r₀, List.mem_cons_of_mem x h₀, hp⟩

/-! ### Claim theorems -/

/-- Claim C2 counterexample.  The family-B cleaning pipeline
(`clean_ahl_pwhl`) never sorts outside the merge branch: on an input with
no goal events whose times arrive out of order, the cleaned output keeps
the input order `[100, 30]`, which is not non-decreasing in
`elapsedTimeSeconds` — so the output is not totally ordered by
`(gameId, elapsedTimeSeconds, orderIdx)`. -/
theorem c2_familyB_output_not_sorted :
    (clean_ahl_pwhl c2events 1 true).map (fun r => r.elapsedTime) = [some 100, some 30] ∧
    ¬ ((clean_ahl_pwhl c2events 1 true).Pairwise
        (fun a b => optTop a.elapsedTime ≤ optTop b.elapsedTime)) := by
  exact ⟨by decide, by decide⟩

/-- Claim C2 (amended): the family-A pipeline with `nhlify=false` outputs a
sequence totally ordered by the key `(gameId, elapsedTimeSeconds, orderIdx)`
with nulls last (first conjunct), and — since `orderIdx` is the original
input position — rows with equal `(gameId, elapsedTimeSeconds)` appear in
their original relative order, i.e. the sort is stable (second
conjunct). -/
theorem c2_familyA_sorted_stable (rows : List RowA) :
    ((clean_pbp rows false).Pairwise (fun a b => leKeyA a b = true)) ∧
    ((clean_pbp rows false).Pairwise
      (fun a b => a.game_id = b.game_id → a.elapsedTime = b.elapsedTime →
        a.orderIdx ≤ b.orderIdx)) := by
  have hs : (clean_pbp rows false).Pairwise (fun a b => leKeyA a b = true) := by
    simp only [clean_pbp, preMergeA, if_neg Bool.false_ne_true]
    exact pairwise_stableSort leKeyA_total leKeyA_trans _
  exact ⟨hs, hs.imp (fun h hg ht => leKeyA_tie_orderIdx h hg ht)⟩

/-- Claim C5: in the family-A output, every row whose resolved period is
non-null and whose seconds-within-period cell is present has
`elapsedTimeSeconds = s + min(period - 1, 4) * 1200`. -/
theorem c5_elapsed_formula (rows : List RowA) (r : WRow)
    (hr : r ∈ clean_pbp rows false) (p sv : ℤ)
    (hp : r.period = some p) (hs : r.s = some sv) :
    r.elapsedTime = some (sv + min (p - 1) 4 * 1200) := by
  simp only [clean_pbp, preMergeA, if_neg Bool.false_ne_true, sortA, scoreA] at hr
  rw [mem_stableSort] at hr
  obtain ⟨r₀, h₀, hper, hsv, het⟩ := mem_scoreGo_shape _ _ r hr
  rw [mem_stableSort] at h₀
  obtain ⟨r₁, -, rfl⟩ := List.mem_map.mp h₀
  cases hq : r₁.period with
  | none =>
    simp only [elapsedA, hq] at hper
    rw [hper] at hp
    exact absurd hp (by simp)
  | some q =>
    simp only [elapsedA, hq] at hper hsv het
    have hqp : q = p := Option.some.inj (hper.symm.trans hp)
    have hs₁ : r₁.s = some sv := hsv.symm.trans hs
    rw [het, hs₁, hqp]
    rfl

/-- Claim C5 witness: a period-2 event with `s = 30` comes out with
`elapsedTimeSeconds = 1230`. -/
theorem c5_elapsed_formula_witness :
    ((clean_pbp [c5row] false).getD 0 defWRow).elapsedTime = some 1230 := by
  have h := c5_elapsed_formula [c5row] ((clean_pbp [c5row] false).getD 0 defWRow)
    (by decide) 2 30 (by decide) (by decide)
  rw [h]
  decide

/-- Claim C1: the family-A merge then copies into the row whose index
LABEL is the shot's label plus one — not the post-sort successor goal row.
On `c1rows` (shot t=30 with `goalieId 99`, hit t=10, goal t=30, all one
game) the `nhlify=true` output has one fewer row than `nhlify=false`, but
the surviving goal row's null `goalieId` is NOT filled with the donor's
`99`; the unrelated hit row receives it instead. -/
theorem c1_merge_copies_into_wrong_row :
    (clean_pbp c1rows true).length + 1 = (clean_pbp c1rows false).length ∧
    (clean_pbp c1rows true).map (fun r => (r.event, r.goalieId)) =
      [("hit", some 99), ("goal", none)] := by
  exact ⟨by decide, by decide⟩

/-- Claim C3: on `c3rows` (two shot+goal pairs whose input order makes the
first shot's label successor the second shot), the first shot's
`goalieId 99` is copied into the second shot row — a row that is itself
merged away — and from there cascades into the first goal row, while the
second goal row (the one actually preceded by that shot) absorbs nothing:
merging cascades through a merged row. -/
theorem c3_merge_cascades :
    (clean_pbp c3rows true).length = 2 ∧
    (clean_pbp c3rows true).map (fun r => (r.event, r.goalieId)) =
      [("goal", some 99), ("goal", none)] := by
  exact ⟨by decide, by decide⟩

/-- Claim C8: when a family-B frame contains no separate goal events, the
retype branch of `_nhlify_ahl_pwhl` is a pure per-row map — every row with
`is_goal = True` (in particular every shot) is retyped in place to
`"goal"`, the row count is unchanged — and on spec Scenario B's input the
full pipeline outputs exactly one row, retyped to `"goal"`. -/
theorem c8_isgoal_retype :
    (∀ l : List BRow, l.any (fun r => r.event = some "goal") = false →
      (nhlify_ahl_pwhl l).length = l.length ∧
      ∀ i : Nat, (nhlify_ahl_pwhl l)[i]? = (l[i]?).map
        (fun r => if r.is_goal = some true then { r with event := some "goal" } else r)) ∧
    ((clean_ahl_pwhl [c8event] 1 true).map (fun r => r.event) = [some "goal"] ∧
      (clean_ahl_pwhl [c8event] 1 true).length = 1) := by
  refine ⟨?_, by decide, by decide⟩
  intro l h
  have hbranch : nhlify_ahl_pwhl l =
      l.map (fun r => if r.is_goal = some true then { r with event := some "goal" } else r) := by
    simp [nhlify_ahl_pwhl, h]
  rw [hbranch]
  exact ⟨List.length_map _ _, fun i => List.getElem?_map _ _ _⟩

/-- Claim C8 witness: the retype branch applied to a one-row frame with no
goal events keeps the row count. -/
theorem c8_isgoal_retype_witness :
    (nhlify_ahl_pwhl [defBRow]).length = [defBRow].length :=
  (c8_isgoal_retype.1 [defBRow] (by decide)).1

/-- Claim C9 counterexample: on the decoded scalar response `"corrupt"`
(neither list nor dict), neither feed family fails with `ParsingError` —
the statviewfeed path raises `ValueError` from the `DataFrame` constructor
and the gc path raises `TypeError`. -/
theorem c9_no_parsing_error :
    scrape_game_statview (.strv "corrupt") ≠ Except.error PyExc.parsingError ∧
    scrape_game_statview (.strv "corrupt") = Except.error PyExc.valueError ∧
    scrape_game_gc (.strv "corrupt") = Except.error PyExc.typeError := by
  refine ⟨?_, rfl, rfl⟩
  intro h
  exact absurd (Except.error.inj h) (by decide)

/-- Claim C9 (amended): a top-level decoded response that is neither a
list nor a dict makes canonicalization of that single game fail with an
exception — `TypeError`, `KeyError` or `ValueError` depending on feed and
shape, never the (never-raised) `ParsingError` — and no rows are
returned. -/
theorem c9_bad_shape_fails (d : PyTop) (hl : d.isList = false) (hd : d.isDict = false) :
    (∃ e, scrape_game_gc d = Except.error e ∧ e ≠ PyExc.parsingError) ∧
    (∃ e, scrape_game_statview d = Except.error e ∧ e ≠ PyExc.parsingError) := by
  cases d with
  | listv n => simp [PyTop.isList] at hl
  | dictv b => simp [PyTop.isDict] at hd
  | nullv => exact ⟨⟨.typeError, rfl, by decide⟩, ⟨.keyError, rfl, by decide⟩⟩
  | strv s => exact ⟨⟨.typeError, rfl, by decide⟩, ⟨.valueError, rfl, by decide⟩⟩
  | numv z => exact ⟨⟨.typeError, rfl, by decide⟩, ⟨.valueError, rfl, by decide⟩⟩

/-- Claim C9 witness: the null response fails on both feed paths with a
non-`ParsingError` exception. -/
theorem c9_bad_shape_fails_witness :
    (∃ e, scrape_game_gc .nullv = Except.error e ∧ e ≠ PyExc.parsingError) ∧
    (∃ e, scrape_game_statview .nullv = Except.error e ∧ e ≠ PyExc.parsingError) :=
  c9_bad_shape_fails .nullv rfl rfl

/-- Claim C10 counterexample: a family-B event whose `details["period"]`
is present but not a dict contributes no `period` key; on a frame made of
such rows the `period` column is absent and the cleaned output row's
period is null — not the non-null integer the claim asserts. -/
theorem c10_period_can_be_null :
    (clean_ahl_pwhl [c10event] 1 true).map (fun r => r.period) = [none] := by
  decide

/-! ### Family-B period-column preservation -/

theorem projB_copyRowB (dst src : BRow) : projB (copyRowB dst src) = projB dst := rfl

theorem mem_applyCopyB (l : List BRow) (p : Nat × Nat) :
    ∀ r ∈ applyCopyB l p, ∃ r₀ ∈ l, projB r = projB r₀ := by
  intro r hr
  unfold applyCopyB at hr
  cases hsrc : l[p.1]? with
  | none => rw [hsrc] at hr; exact ⟨r, hr, rfl⟩
  | some src =>
    rw [hsrc] at hr
    obtain ⟨q, hq, rfl⟩ := List.mem_map.mp hr
    have hq2 : q.2 ∈ l := by
      have := List.mem_map_of_mem Prod.snd hq
      rwa [List.enum_map_snd] at this
    by_cases hqi : q.1 = p.2
    · exact ⟨q.2, hq2, by simp [hqi, projB_copyRowB]⟩
    · exact ⟨q.2, hq2, by simp [hqi]⟩

theorem mem_foldl_applyCopyB (ps : List (Nat × Nat)) :
    ∀ (l : List BRow) (r : BRow), r ∈ ps.foldl applyCopyB l → ∃ r₀ ∈ l, projB r = projB r₀ := by
  induction ps with
  | nil => intro l r hr; exact ⟨r, hr, rfl⟩
  | cons p ps ih =>
    intro l r hr
    obtain ⟨r₁, h₁, e₁⟩ := ih (applyCopyB l p) r hr
    obtain ⟨r₀, h₀, e₀⟩ := mem_applyCopyB l p r₁ h₁
    exact ⟨r₀, h₀, e₁.trans e₀⟩

theorem mem_nhlifyB_projB (l : List BRow) :
    ∀ r ∈ nhlify_ahl_pwhl l, ∃ r₀ ∈ l, projB r = projB r₀ := by
  intro r hr
  unfold nhlify_ahl_pwhl at hr
  by_cases hg : (l.any fun r => r.event = some "goal") = true
  · rw [if_pos hg] at hr
    obtain ⟨q, hq, rfl⟩ := List.mem_map.mp hr
    have hq2 : q.2 ∈ (((List.range ((stableSort leKeyB l).enum.map
          (fun p => { p.2 with label := p.1 } : Nat × BRow → BRow)).length).filterMap fun i =>
            if mergeMaskB ((stableSort leKeyB l).enum.map
                (fun p => { p.2 with label := p.1 })) i ∧
                i + 1 < ((stableSort leKeyB l).enum.map
                (fun p => { p.2 with label := p.1 })).length
            then some (i, i + 1) else none).foldl applyCopyB
          ((stableSort leKeyB l).enum.map fun p => { p.2 with label := p.1 })).enum.map
            Prod.snd := by
      have h1 := List.mem_map_of_mem Prod.snd hq
      rw [List.enum_map_snd] at h1
      obtain ⟨qq, hqq, hqq2⟩ := List.mem_map.mp h1
      have hqq' := List.mem_of_mem_filter hqq
      rw [← hqq2]
      exact List.mem_map_of_mem Prod.snd hqq'
    rw [List.enum_map_snd] at hq2
    obtain ⟨r₃, h₃, e₃⟩ := mem_foldl_applyCopyB _ _ _ hq2
    obtain ⟨p₃, hp₃, rfl⟩ := List.mem_map.mp h₃
    have hp₃2 : p₃.2 ∈ stableSort leKeyB l := by
      have := List.mem_map_of_mem Prod.snd hp₃
      rwa [List.enum_map_snd] at this
    refine ⟨p₃.2, (mem_stableSort leKeyB).mp hp₃2, ?_⟩
    calc projB { q.2 with label := q.1 } = projB q.2 := rfl
      _ = projB { p₃.2 with label := p₃.1 } := e₃
      _ = projB p₃.2 := rfl
  · rw [if_neg hg] at hr
    obtain ⟨r₀, h₀, rfl⟩ := List.mem_map.mp hr
    refine ⟨r₀, h₀, ?_⟩
    by_cases hig : r₀.is_goal = some true
    · simp [hig, projB]
    · simp [hig]

/-- Claim C10 (amended): whenever at least one flattened family-B row
carries a `period` key (its `details["period"]` was a dict or absent), the
`period` column exists and EVERY cleaned output row's period is the
non-null integer `toNumericB periodStr` (first conjunct); an absent
`period` sub-object defaults the key to the string `"1"` (second
conjunct); and a null or non-numeric period string coerces to the integer
1 (third conjunct).  When NO flattened row carries the key, the column is
absent and the output periods stay null (see the counterexample). -/
theorem c10_period_nonnull_when_column_exists :
    (∀ (events : List BEvent) (gid : Nat) (nh : Bool),
      (events.any fun e => ((flatten_ahl_pwhl_event e).periodStr).isSome) = true →
      ∀ r ∈ clean_ahl_pwhl events gid nh, r.period = some (toNumericB r.periodStr)) ∧
    (∀ e : BEvent, e.period = BPeriodField.absent →
      (flatten_ahl_pwhl_event e).periodStr = some "1") ∧
    (∀ o : Option String, o.bind strInt? = none → toNumericB o = 1) := by
  refine ⟨?_, ?_, ?_⟩
  · intro events gid nh hany r hr
    have hcol : ((events.enum.map (mkBRow gid)).any fun r => r.periodStr.isSome) = true := by
      rw [List.any_eq_true] at hany ⊢
      obtain ⟨e, he, hsome⟩ := hany
      have he' : e ∈ events.enum.map Prod.snd := by rw [List.enum_map_snd]; exact he
      obtain ⟨q, hq, hq2⟩ := List.mem_map.mp he'
      refine ⟨mkBRow gid q, List.mem_map_of_mem _ hq, ?_⟩
      show ((mkBRow gid q).periodStr).isSome = true
      rw [show (mkBRow gid q).periodStr = (flatten_ahl_pwhl_event q.2).periodStr from rfl, hq2]
      exact hsome
    have hX : ∀ r₀ ∈ ((events.enum.map (mkBRow gid)).map setQuality).map setPeriodNum,
        r₀.period = some (toNumericB r₀.periodStr) := by
      intro r₀ h₀
      obtain ⟨r₁, -, rfl⟩ := List.mem_map.mp h₀
      rfl
    simp only [clean_ahl_pwhl, hcol, if_true] at hr
    cases nh with
    | true =>
      simp only [if_true] at hr
      obtain ⟨r₀, h₀, hproj⟩ := mem_nhlifyB_projB _ r hr
      have h1 : r.period = r₀.period := congrArg Prod.fst hproj
      have h2 : r.periodStr = r₀.periodStr := congrArg Prod.snd hproj
      rw [h1, h2]
      exact hX r₀ h₀
    | false =>
      simp only [Bool.false_eq_true, if_false] at hr
      exact hX r hr
  · intro e he
    simp [flatten_ahl_pwhl_event, he]
  · intro o ho
    simp [toNumericB, ho]

/-- Claim C10 witness: Scenario B's event has a `period` key, so its
cleaned row carries the non-null integer period given by the coercion. -/
theorem c10_period_nonnull_witness :
    ((clean_ahl_pwhl [c8event] 1 true).getD 0 defBRow).period
      = some (toNumericB ((clean_ahl_pwhl [c8event] 1 true).getD 0 defBRow).periodStr) :=
  c10_period_nonnull_when_column_exists.1 [c8event] 1 true (by decide) _ (by decide)

/-! ### Score characterization (claim C4) -/

theorem scoreGo_length (st : List (Nat × Nat × Nat)) (l : List WRow) :
    (scoreGo st l).length = l.length := by
  induction l generalizing st with
  | nil => rfl
  | cons r rs ih => simp [scoreGo, ih]

theorem lookupScore_cons (g h a g' : Nat) (st : List (Nat × Nat × Nat)) :
    lookupScore ((g, h, a) :: st) g' = if g = g' then (h, a) else lookupScore st g' := by
  by_cases hg : g = g' <;> simp [lookupScore, hg]

theorem scoreGo_getElem? (l : List WRow) :
    ∀ (st : List (Nat × Nat × Nat)) (i : Nat),
      (scoreGo st l)[i]? = (l[i]?).map fun r =>
        { r with
          score_home := (lookupScore st r.game_id).1 + countHomeGoals r.game_id (l.take (i+1))
          score_away := (lookupScore st r.game_id).2 + countAwayGoals r.game_id (l.take (i+1)) } := by
  induction l with
  | nil => intro st i; simp [scoreGo]
  | cons r rs ih =>
    intro st i
    cases i with
    | zero =>
      have hh : countHomeGoals r.game_id ((r :: rs).take 1)
          = if isHomeGoal r.game_id r then 1 else 0 := by
        simp [countHomeGoals, List.countP_cons]
      have ha : countAwayGoals r.game_id ((r :: rs).take 1)
          = if isAwayGoal r.game_id r then 1 else 0 := by
        simp [countAwayGoals, List.countP_cons]
      simp only [scoreGo, List.getElem?_cons_zero, Option.map_some', hh, ha]
    | succ i =>
      simp only [scoreGo, List.getElem?_cons_succ, ih]
      cases hrs : rs[i]? with
      | none => rfl
      | some r1 =>
        simp only [Option.map_some']
        have hch : countHomeGoals r1.game_id ((r :: rs).take (i + 2))
            = countHomeGoals r1.game_id (rs.take (i + 1))
              + (if isHomeGoal r1.game_id r then 1 else 0) := by
          simp [countHomeGoals, List.take_succ_cons, List.countP_cons]
        have hca : countAwayGoals r1.game_id ((r :: rs).take (i + 2))
            = countAwayGoals r1.game_id (rs.take (i + 1))
              + (if isAwayGoal r1.game_id r then 1 else 0) := by
          simp [countAwayGoals, List.take_succ_cons, List.countP_cons]
        rw [lookupScore_cons]
        by_cases hg : r.game_id = r1.game_id
        · rw [hch, hca, if_pos hg]
          have hih : isHomeGoal r1.game_id r = isHomeGoal r.game_id r := by rw [hg]
          have hia : isAwayGoal r1.game_id r = isAwayGoal r.game_id r := by rw [hg]
          have hl : lookupScore st r1.game_id = lookupScore st r.game_id := by rw [hg]
          rw [hih, hia, hl]
          simp only [Option.some.injEq, WRow.mk.injEq, true_and, and_true]
          constructor <;> omega
        · have hih : isHomeGoal r1.game_id r = false := by simp [isHomeGoal, hg]
          have hia : isAwayGoal r1.game_id r = false := by simp [isAwayGoal, hg]
          have hch' : countHomeGoals r1.game_id ((r :: rs).take (i + 2))
              = countHomeGoals r1.game_id (rs.take (i + 1)) := by
            rw [hch, hih]
            simp
          have hca' : countAwayGoals r1.game_id ((r :: rs).take (i + 2))
              = countAwayGoals r1.game_id (rs.take (i + 1)) := by
            rw [hca, hia]
            simp
          rw [hch', hca', if_neg hg]

theorem pairwise_leKeyA_scoreGo (st : List (Nat × Nat × Nat)) (l : List WRow)
    (h : l.Pairwise (fun a b => leKeyA a b = true)) :
    (scoreGo st l).Pairwise (fun a b => leKeyA a b = true) := by
  have he := scoreGo_map_eraseScore st l
  have h1 : (l.map eraseScore).Pairwise (fun a b => leKeyA a b = true) := by
    rw [List.pairwise_map]
    exact h.imp (fun hab => hab)
  rw [← he, List.pairwise_map] at h1
  exact h1.imp (fun hab => hab)

theorem preMergeA_eq_scoreA (rows : List RowA) :
    preMergeA rows
      = scoreA (sortA ((periodFillA (hasOTLabel rows) (initA rows)).map elapsedA)) := by
  show sortA (scoreA (sortA ((periodFillA (hasOTLabel rows) (initA rows)).map elapsedA)))
      = scoreA (sortA ((periodFillA (hasOTLabel rows) (initA rows)).map elapsedA))
  exact stableSort_of_pairwise
    (pairwise_leKeyA_scoreGo [] _ (pairwise_stableSort leKeyA_total leKeyA_trans _))

theorem countP_scoreGo_take (p : WRow → Bool) (hp : ∀ r, p (eraseScore r) = p r)
    (st : List (Nat × Nat × Nat)) (l : List WRow) (n : Nat) :
    ((scoreGo st l).take n).countP p = (l.take n).countP p := by
  have h1 : ((scoreGo st l).take n).map eraseScore = (l.take n).map eraseScore := by
    rw [List.map_take, List.map_take, scoreGo_map_eraseScore]
  calc ((scoreGo st l).take n).countP p
      = ((scoreGo st l).take n).countP (p ∘ eraseScore) :=
        (List.countP_congr (fun a _ => by simp [Function.comp, hp a]))
    _ = (((scoreGo st l).take n).map eraseScore).countP p := (List.countP_map p eraseScore _).symm
    _ = ((l.take n).map eraseScore).countP p := by rw [h1]
    _ = (l.take n).countP (p ∘ eraseScore) := List.countP_map p eraseScore _
    _ = (l.take n).countP p := List.countP_congr (fun a _ => by simp [Function.comp, hp a])

/-- Claim C4: over the canonically sorted pre-merge family-A sequence, the
per-game scores are non-decreasing from row to row (first conjunct), and
every row's score snapshot is the inclusive per-game cumulative count of
home/away goals up to and including that row — in particular a goal row
with `home = 1` (resp. `0`) has `score_home ≥ 1` (resp. `score_away`):
its own snapshot already counts it (second conjunct). -/
theorem c4_scores_monotone_inclusive (rows : List RowA) :
    (∀ i j (hi : i < (preMergeA rows).length) (hj : j < (preMergeA rows).length),
      i ≤ j →
      ((preMergeA rows).get ⟨i, hi⟩).game_id = ((preMergeA rows).get ⟨j, hj⟩).game_id →
      ((preMergeA rows).get ⟨i, hi⟩).score_home ≤ ((preMergeA rows).get ⟨j, hj⟩).score_home ∧
      ((preMergeA rows).get ⟨i, hi⟩).score_away ≤ ((preMergeA rows).get ⟨j, hj⟩).score_away) ∧
    (∀ i (hi : i < (preMergeA rows).length),
      ((preMergeA rows).get ⟨i, hi⟩).score_home
        = countHomeGoals ((preMergeA rows).get ⟨i, hi⟩).game_id
            ((preMergeA rows).take (i+1)) ∧
      ((preMergeA rows).get ⟨i, hi⟩).score_away
        = countAwayGoals ((preMergeA rows).get ⟨i, hi⟩).game_id
            ((preMergeA rows).take (i+1)) ∧
      (((preMergeA rows).get ⟨i, hi⟩).event = "goal" →
        ((preMergeA rows).get ⟨i, hi⟩).home = some 1 →
        1 ≤ ((preMergeA rows).get ⟨i, hi⟩).score_home) ∧
      (((preMergeA rows).get ⟨i, hi⟩).event = "goal" →
        ((preMergeA rows).get ⟨i, hi⟩).home = some 0 →
        1 ≤ ((preMergeA rows).get ⟨i, hi⟩).score_away)) := by
  have heq : preMergeA rows
      = scoreGo [] (sortA ((periodFillA (hasOTLabel rows) (initA rows)).map elapsedA)) :=
    preMergeA_eq_scoreA rows
  have hchar : ∀ i (hi : i < (preMergeA rows).length),
      ((preMergeA rows).get ⟨i, hi⟩).score_home
        = countHomeGoals ((preMergeA rows).get ⟨i, hi⟩).game_id
            ((preMergeA rows).take (i+1)) ∧
      ((preMergeA rows).get ⟨i, hi⟩).score_away
        = countAwayGoals ((preMergeA rows).get ⟨i, hi⟩).game_id
            ((preMergeA rows).take (i+1)) := by
    intro i hi
    set Y := sortA ((periodFillA (hasOTLabel rows) (initA rows)).map elapsedA) with hYdef
    have hiY : i < Y.length := by
      have := hi
      rw [heq, scoreGo_length] at this
      exact this
    have h1 : (preMergeA rows)[i]? = some ((preMergeA rows).get ⟨i, hi⟩) := by
      rw [List.getElem?_eq_getElem hi]
      rfl
    have h2 : (preMergeA rows)[i]? = (Y[i]?).map (fun r =>
        { r with
          score_home := (lookupScore [] r.game_id).1 + countHomeGoals r.game_id (Y.take (i+1))
          score_away := (lookupScore [] r.game_id).2
            + countAwayGoals r.game_id (Y.take (i+1)) }) := by
      rw [heq]
      exact scoreGo_getElem? Y [] i
    have h3 : Y[i]? = some (Y.get ⟨i, hiY⟩) := by
      rw [List.getElem?_eq_getElem hiY]
      rfl
    rw [h1, h3, Option.map_some'] at h2
    have h4 := Option.some.inj h2
    have hgid : ((preMergeA rows).get ⟨i, hi⟩).game_id = (Y.get ⟨i, hiY⟩).game_id := by
      rw [h4]
    have hcnth : countHomeGoals (Y.get ⟨i, hiY⟩).game_id (Y.take (i+1))
        = countHomeGoals (Y.get ⟨i, hiY⟩).game_id ((preMergeA rows).take (i+1)) := by
      rw [heq]
      exact (countP_scoreGo_take (isHomeGoal (Y.get ⟨i, hiY⟩).game_id)
        (fun r => rfl) [] Y (i+1)).symm
    have hcnta : countAwayGoals (Y.get ⟨i, hiY⟩).game_id (Y.take (i+1))
        = countAwayGoals (Y.get ⟨i, hiY⟩).game_id ((preMergeA rows).take (i+1)) := by
      rw [heq]
      exact (countP_scoreGo_take (isAwayGoal (Y.get ⟨i, hiY⟩).game_id)
        (fun r => rfl) [] Y (i+1)).symm
    constructor
    · rw [h4]
      simpa [lookupScore] using hcnth
    · rw [h4]
      simpa [lookupScore] using hcnta
  constructor
  · intro i j hi hj hij hg
    have hci := hchar i hi
    have hcj := hchar j hj
    have hpref : ((preMergeA rows).take (i+1)).Sublist ((preMergeA rows).take (j+1)) := by
      have : (preMergeA rows).take (i+1) = ((preMergeA rows).take (j+1)).take (i+1) := by
        rw [List.take_take]
        congr 1
        omega
      rw [this]
      exact List.take_sublist _ _
    constructor
    · rw [hci.1, hcj.1, hg]
      exact hpref.countP_le _
    · rw [hci.2, hcj.2, hg]
      exact hpref.countP_le _
  · intro i hi
    have hc := hchar i hi
    refine ⟨hc.1, hc.2, ?_, ?_⟩
    · intro hev hho
      rw [hc.1]
      have hmem : (preMergeA rows).get ⟨i, hi⟩ ∈ (preMergeA rows).take (i+1) := by
        have hlt : i < ((preMergeA rows).take (i+1)).length := by
          rw [List.length_take]
          omega
        have hget : ((preMergeA rows).take (i+1)).get ⟨i, hlt⟩
            = (preMergeA rows).get ⟨i, hi⟩ := List.getElem_take _
        rw [← hget]
        exact List.get_mem _ _ _
      have hpred : isHomeGoal ((preMergeA rows).get ⟨i, hi⟩).game_id
          ((preMergeA rows).get ⟨i, hi⟩) = true := by
        simp only [isHomeGoal, Bool.and_eq_true, decide_eq_true_eq]
        exact ⟨⟨trivial, hev⟩, hho⟩
      exact List.countP_pos_iff.mpr ⟨(preMergeA rows).get ⟨i, hi⟩, hmem, hpred⟩
    · intro hev hho
      rw [hc.2]
      have hmem : (preMergeA rows).get ⟨i, hi⟩ ∈ (preMergeA rows).take (i+1) := by
        have hlt : i < ((preMergeA rows).take (i+1)).length := by
          rw [List.length_take]
          omega
        have hget : ((preMergeA rows).take (i+1)).get ⟨i, hlt⟩
            = (preMergeA rows).get ⟨i, hi⟩ := List.getElem_take _
        rw [← hget]
        exact List.get_mem _ _ _
      have hpred : isAwayGoal ((preMergeA rows).get ⟨i, hi⟩).game_id
          ((preMergeA rows).get ⟨i, hi⟩) = true := by
        simp only [isAwayGoal, Bool.and_eq_true, decide_eq_true_eq]
        exact ⟨⟨trivial, hev⟩, hho⟩
      exact List.countP_pos_iff.mpr ⟨(preMergeA rows).get ⟨i, hi⟩, hmem, hpred⟩

/-- Claim C4 witness: on the three-row game `c1rows`, the scores at the
first sorted row are below those at the goal row. -/
theorem c4_scores_witness :
    ((preMergeA c1rows).get ⟨0, by decide⟩).score_home
      ≤ ((preMergeA c1rows).get ⟨2, by decide⟩).score_home ∧
    ((preMergeA c1rows).get ⟨0, by decide⟩).score_away
      ≤ ((preMergeA c1rows).get ⟨2, by decide⟩).score_away :=
  (c4_scores_monotone_inclusive c1rows).1 0 2 (by decide) (by decide) (by decide) (by decide)

/-! ### Period gap-filling characterization (claim C6) -/

theorem optOr_none (a : Option ℤ) : a.or none = a := by cases a <;> rfl

theorem optOr_assoc (a b c : Option ℤ) : (a.or b).or c = a.or (b.or c) := by
  cases a <;> rfl

theorem lookupGame_cons (g : Nat) (p : ℤ) (st : List (Nat × ℤ)) (g' : Nat) :
    lookupGame ((g, p) :: st) g' = if g = g' then some p else lookupGame st g' := by
  by_cases h : g = g' <;> simp [lookupGame, h]

theorem ffScan_cons (r : WRow) (rs : List WRow) (i : Nat) (g : Nat) :
    ffScan (r :: rs) (i+1) g
      = (ffScan rs i g).or
          (if r.game_id = g ∧ r.event ≠ "shootout" then r.period else none) := by
  simp only [ffScan, List.take_succ_cons, List.reverse_cons, List.filterMap_append,
    List.head?_append]
  congr 1
  simp [List.filterMap_cons]
  cases hc : (if r.game_id = g ∧ r.event ≠ "shootout" then r.period else none) <;> simp [hc]

theorem ffScan_zero_cons (r : WRow) (rs : List WRow) (g : Nat) :
    ffScan (r :: rs) 0 g
      = (if r.game_id = g ∧ r.event ≠ "shootout" then r.period else none).or none := by
  simp only [ffScan, List.take_succ_cons, List.take_zero, List.reverse_cons,
    List.reverse_nil, List.nil_append, List.filterMap_cons]
  cases hc : (if r.game_id = g ∧ r.event ≠ "shootout" then r.period else none) <;>
    simp [hc, List.filterMap_nil]

theorem ffillA_getElem? (l : List WRow) :
    ∀ (st : List (Nat × ℤ)) (i : Nat),
      (ffillA st l)[i]? = (l[i]?).map fun r =>
        if r.event = "shootout" then r
        else { r with period := (ffScan l i r.game_id).or (lookupGame st r.game_id) } := by
  induction l with
  | nil => intro st i; simp [ffillA]
  | cons r rs ih =>
    intro st i
    by_cases hso : r.event = "shootout"
    · have hstep : ffillA st (r :: rs) = r :: ffillA st rs := by simp [ffillA, hso]
      rw [hstep]
      cases i with
      | zero =>
        simp only [List.getElem?_cons_zero, Option.map_some']
        rw [if_pos hso]
      | succ i =>
        simp only [List.getElem?_cons_succ, ih st i]
        cases hrs : rs[i]? with
        | none => rfl
        | some r1 =>
          simp only [Option.map_some']
          by_cases hso1 : r1.event = "shootout"
          · rw [if_pos hso1, if_pos hso1]
          · rw [if_neg hso1, if_neg hso1]
            have hscan : ffScan (r :: rs) (i+1) r1.game_id = ffScan rs i r1.game_id := by
              rw [ffScan_cons]
              have : (if r.game_id = r1.game_id ∧ r.event ≠ "shootout"
                  then r.period else none) = none := by
                simp [hso]
              rw [this, optOr_none]
            rw [hscan]
    · cases hp : r.period with
      | some p =>
        have hstep : ffillA st (r :: rs) = r :: ffillA ((r.game_id, p) :: st) rs := by
          simp [ffillA, hso, hp]
        rw [hstep]
        cases i with
        | zero =>
          simp only [List.getElem?_cons_zero, Option.map_some']
          rw [if_neg hso]
          have hscan : ffScan (r :: rs) 0 r.game_id = some p := by
            rw [ffScan_zero_cons]
            simp [hso, hp]
          rw [hscan]
          show some r = some { r with period := some p }
          rw [← hp]
        | succ i =>
          simp only [List.getElem?_cons_succ, ih ((r.game_id, p) :: st) i]
          cases hrs : rs[i]? with
          | none => rfl
          | some r1 =>
            simp only [Option.map_some']
            by_cases hso1 : r1.event = "shootout"
            · rw [if_pos hso1, if_pos hso1]
            · rw [if_neg hso1, if_neg hso1]
              rw [ffScan_cons, lookupGame_cons]
              have hcontrib : (if r.game_id = r1.game_id ∧ r.event ≠ "shootout"
                  then r.period else none)
                  = if r.game_id = r1.game_id then some p else none := by
                by_cases hg : r.game_id = r1.game_id <;> simp [hg, hso, hp]
              rw [hcontrib]
              by_cases hg : r.game_id = r1.game_id
              · rw [if_pos hg, if_pos hg, optOr_assoc]
                rfl
              · rw [if_neg hg, if_neg hg, optOr_none]
      | none =>
        have htail : ∀ j, (ffillA st (r :: rs))[j + 1]? = (ffillA st rs)[j]? := by
          intro j
          cases hl : lookupGame st r.game_id with
          | some p =>
            have hstep : ffillA st (r :: rs)
                = { r with period := some p } :: ffillA st rs := by
              simp [ffillA, hso, hp, hl]
            rw [hstep, List.getElem?_cons_succ]
          | none =>
            have hstep : ffillA st (r :: rs) = r :: ffillA st rs := by
              simp [ffillA, hso, hp, hl]
            rw [hstep, List.getElem?_cons_succ]
        cases i with
        | zero =>
          have hscan : ffScan (r :: rs) 0 r.game_id = none := by
            rw [ffScan_zero_cons]
            simp [hso, hp]
          cases hl : lookupGame st r.game_id with
          | some p =>
            have hstep : ffillA st (r :: rs)
                = { r with period := some p } :: ffillA st rs := by
              simp [ffillA, hso, hp, hl]
            rw [hstep]
            simp only [List.getElem?_cons_zero, Option.map_some']
            rw [if_neg hso, hscan]
            simp [hl]
          | none =>
            have hstep : ffillA st (r :: rs) = r :: ffillA st rs := by
              simp [ffillA, hso, hp, hl]
            rw [hstep]
            simp only [List.getElem?_cons_zero, Option.map_some']
            rw [if_neg hso, hscan]
            simp [hl]
            show r = { r with period := none }
            rw [← hp]
        | succ i =>
          rw [htail i, ih st i]
          simp only [List.getElem?_cons_succ]
          cases hrs : rs[i]? with
          | none => rfl
          | some r1 =>
            simp only [Option.map_some']
            by_cases hso1 : r1.event = "shootout"
            · rw [if_pos hso1, if_pos hso1]
            · rw [if_neg hso1, if_neg hso1]
              have hscan : ffScan (r :: rs) (i+1) r1.game_id = ffScan rs i r1.game_id := by
                rw [ffScan_cons]
                have : (if r.game_id = r1.game_id ∧ r.event ≠ "shootout"
                    then r.period else none) = none := by
                  by_cases hg : r.game_id = r1.game_id <;> simp [hg, hso, hp]
                rw [this, optOr_none]
              rw [hscan]

theorem ffillA_length (st : List (Nat × ℤ)) (l : List WRow) :
    (ffillA st l).length = l.length := by
  induction l generalizing st with
  | nil => rfl
  | cons r rs ih =>
    by_cases hso : r.event = "shootout"
    · simp [ffillA, hso, ih]
    · cases hp : r.period with
      | some p => simp [ffillA, hso, hp, ih]
      | none =>
        cases hl : lookupGame st r.game_id with
        | some q => simp [ffillA, hso, hp, hl, ih]
        | none => simp [ffillA, hso, hp, hl, ih]

theorem head?_filterMap_cons {α β : Type} (f : α → Option β) (x : α) (xs : List α) :
    (List.filterMap f (x :: xs)).head? = (f x).or (List.filterMap f xs).head? := by
  rw [List.filterMap_cons]
  cases f x <;> simp

theorem firstNonSOPeriod_bfillA (l : List WRow) :
    firstNonSOPeriod (bfillA l) = firstSomeNonSO l := by
  induction l with
  | nil => rfl
  | cons r rs ih =>
    by_cases hso : r.event = "shootout"
    · have hstep : bfillA (r :: rs) = r :: bfillA rs := by simp [bfillA, hso]
      rw [hstep]
      have h1 : firstNonSOPeriod (r :: bfillA rs) = firstNonSOPeriod (bfillA rs) := by
        simp [firstNonSOPeriod, hso]
      have h2 : firstSomeNonSO (r :: rs) = firstSomeNonSO rs := by
        simp only [firstSomeNonSO, head?_filterMap_cons]
        simp [hso]
      rw [h1, h2, ih]
    · cases hp : r.period with
      | some p =>
        have hstep : bfillA (r :: rs) = r :: bfillA rs := by simp [bfillA, hso, hp]
        rw [hstep]
        have h1 : firstNonSOPeriod (r :: bfillA rs) = some p := by
          simp [firstNonSOPeriod, hso, hp]
        have h2 : firstSomeNonSO (r :: rs) = some p := by
          simp only [firstSomeNonSO, head?_filterMap_cons]
          simp [hso, hp]
        rw [h1, h2]
      | none =>
        have hstep : bfillA (r :: rs)
            = { r with period := firstNonSOPeriod (bfillA rs) } :: bfillA rs := by
          simp [bfillA, hso, hp]
        rw [hstep]
        have h1 : firstNonSOPeriod ({ r with period := firstNonSOPeriod (bfillA rs) }
            :: bfillA rs) = firstNonSOPeriod (bfillA rs) := by
          simp [firstNonSOPeriod, hso]
        have h2 : firstSomeNonSO (r :: rs) = firstSomeNonSO rs := by
          simp only [firstSomeNonSO, head?_filterMap_cons]
          simp [hso, hp]
        rw [h1, h2, ih]

theorem bfillA_getElem? (l : List WRow) :
    ∀ i : Nat, (bfillA l)[i]? = (l[i]?).map fun r =>
      if r.event = "shootout" then r
      else { r with period := r.period.or (firstSomeNonSO (l.drop (i+1))) } := by
  induction l with
  | nil => intro i; simp [bfillA]
  | cons r rs ih =>
    intro i
    cases i with
    | zero =>
      simp only [List.drop_succ_cons, List.drop_zero, List.getElem?_cons_zero,
        Option.map_some']
      by_cases hso : r.event = "shootout"
      · have hstep : bfillA (r :: rs) = r :: bfillA rs := by simp [bfillA, hso]
        rw [hstep, List.getElem?_cons_zero, if_pos hso]
      · cases hp : r.period with
        | some p =>
          have hstep : bfillA (r :: rs) = r :: bfillA rs := by simp [bfillA, hso, hp]
          rw [hstep, List.getElem?_cons_zero, if_neg hso]
          rw [show ((some p).or (firstSomeNonSO rs) : Option ℤ) = some p from rfl, ← hp]
        | none =>
          have hstep : bfillA (r :: rs)
              = { r with period := firstNonSOPeriod (bfillA rs) } :: bfillA rs := by
            simp [bfillA, hso, hp]
          rw [hstep, List.getElem?_cons_zero, if_neg hso, firstNonSOPeriod_bfillA]
          rfl
    | succ i =>
      have htail : (bfillA (r :: rs))[i + 1]? = (bfillA rs)[i]? := by
        by_cases hso : r.event = "shootout"
        · have hstep : bfillA (r :: rs) = r :: bfillA rs := by simp [bfillA, hso]
          rw [hstep, List.getElem?_cons_succ]
        · cases hp : r.period with
          | some p =>
            have hstep : bfillA (r :: rs) = r :: bfillA rs := by simp [bfillA, hso, hp]
            rw [hstep, List.getElem?_cons_succ]
          | none =>
            have hstep : bfillA (r :: rs)
                = { r with period := firstNonSOPeriod (bfillA rs) } :: bfillA rs := by
              simp [bfillA, hso, hp]
            rw [hstep, List.getElem?_cons_succ]
      rw [htail, ih i]
      simp only [List.getElem?_cons_succ, List.drop_succ_cons]

theorem firstSomeNonSO_ffill_drop (l : List WRow) :
    ∀ (k m : Nat), l.length - m ≤ k →
      firstSomeNonSO ((ffillA [] l).drop m)
        = (((List.range l.length).drop m).filterMap fun j =>
            match l[j]? with
            | some r' => if r'.event ≠ "shootout" then ffScan l j r'.game_id else none
            | none => none).head? := by
  intro k
  induction k with
  | zero =>
    intro m hm
    rw [List.drop_eq_nil_of_le (by rw [ffillA_length]; omega),
      List.drop_eq_nil_of_le (by rw [List.length_range]; omega)]
    rfl
  | succ k ihk =>
    intro m hm
    by_cases hlt : m < l.length
    · have hltf : m < (ffillA [] l).length := by rw [ffillA_length]; exact hlt
      have hltr : m < (List.range l.length).length := by rw [List.length_range]; exact hlt
      rw [List.drop_eq_getElem_cons hltf, List.drop_eq_getElem_cons hltr,
        List.getElem_range]
      have hcons1 : ∀ (x : WRow) (rest : List WRow),
          firstSomeNonSO (x :: rest)
            = (if x.event ≠ "shootout" then x.period else none).or (firstSomeNonSO rest) := by
        intro x rest
        simp only [firstSomeNonSO, head?_filterMap_cons]
      rw [hcons1, head?_filterMap_cons]
      have hval : (if (ffillA [] l)[m].event ≠ "shootout"
          then (ffillA [] l)[m].period else none)
          = (match l[m]? with
             | some r' => if r'.event ≠ "shootout" then ffScan l m r'.game_id else none
             | none => none) := by
        have h1 : (ffillA [] l)[m]? = some ((ffillA [] l)[m]) := List.getElem?_eq_getElem hltf
        have h2 : l[m]? = some (l[m]) := List.getElem?_eq_getElem hlt
        have h3 := ffillA_getElem? l [] m
        rw [h1, h2, Option.map_some'] at h3
        have h4 := Option.some.inj h3
        rw [h4, h2]
        by_cases hso : (l[m]).event = "shootout" <;>
          simp [hso, lookupGame, optOr_none]
      rw [hval, ihk (m+1) (by omega)]
    · have hm' : l.length ≤ m := by omega
      rw [List.drop_eq_nil_of_le (by rw [ffillA_length]; omega),
        List.drop_eq_nil_of_le (by rw [List.length_range]; omega)]
      rfl

theorem periodFillA_getElem? (hasOT : Bool) (l : List WRow) (i : Nat) :
    (periodFillA hasOT l)[i]? = (l[i]?).map fun r =>
      { r with period := specPeriod hasOT l i r } := by
  have hb := bfillA_getElem? (ffillA [] l) i
  rw [ffillA_getElem? l [] i] at hb
  have hbridge := firstSomeNonSO_ffill_drop l (l.length - (i+1)) (i+1) (by omega)
  cases hl : l[i]? with
  | none =>
    have hfilled : (bfillA (ffillA [] l))[i]? = none := by rw [hb, hl]; rfl
    unfold periodFillA
    cases hasOT with
    | true => simp only [if_true]; rw [hfilled]; rfl
    | false =>
      simp only [Bool.false_eq_true, if_false, sentinelFill, List.getElem?_map, hfilled, hl]
      rfl
  | some r =>
    rw [hl, Option.map_some'] at hb
    have hval : (bfillA (ffillA [] l))[i]? = some (
        if r.event = "shootout" then r
        else { r with period := (ffScan l i r.game_id).or (firstFFafter l i) }) := by
      rw [hb]
      by_cases hso : r.event = "shootout"
      · simp [hso]
      · simp only [Option.map_some', if_neg hso]
        have hlk : (lookupGame [] r.game_id : Option ℤ) = none := rfl
        rw [hlk, optOr_none, hbridge]
        rfl
    unfold periodFillA
    cases hasOT with
    | true =>
      simp only [if_true]
      rw [hval, Option.map_some']
      by_cases hso : r.event = "shootout"
      · rw [if_pos hso]
        simp only [specPeriod, if_pos hso]
      · rw [if_neg hso]
        simp only [specPeriod, if_neg hso]
        cases hor : (ffScan l i r.game_id).or (firstFFafter l i) <;> rfl
    | false =>
      simp only [Bool.false_eq_true, if_false, sentinelFill, List.getElem?_map]
      rw [hval]
      simp only [Option.map_some']
      by_cases hso : r.event = "shootout"
      · rw [if_pos hso]
        simp only [specPeriod, if_pos hso]
        rw [if_neg (by simp [hso])]
      · rw [if_neg hso]
        simp only [specPeriod, if_neg hso]
        cases hor : (ffScan l i r.game_id).or (firstFFafter l i) with
        | none =>
          rw [if_pos (by simp [hso, hor])]
          rfl
        | some p =>
          rw [if_neg (by simp [hso, hor])]

/-- Claim C6 counterexample: in the two-game frame `c6rows`, game 1 (the
last two rows) contains no OT labels, yet after gap filling its null
periods remain null instead of defaulting to the shootout sentinel 5 —
because the no-OT check is frame-global and game 2's `"1st OT"` label sets
it. -/
theorem c6_per_game_default_fails :
    hasOTLabel (c6rows.drop 1) = false ∧
    (periodFillA (hasOTLabel c6rows) (initA c6rows)).map (fun r => r.period)
      = [some 4, none, none] := by
  exact ⟨by decide, by decide⟩

/-- Claim C6 (amended): the family-A period gap filling is characterized
row by row by `specPeriod` — shootout rows keep their own coerced period
(never filled); any other row takes the last non-null period of a
non-shootout row of ITS game at or before it, else the first non-null
forward-filled value of any later non-shootout row of the WHOLE frame,
else the sentinel 5 exactly when the whole frame carries no OT label
(otherwise null).  The OT labels "1st OT".."9th OT" map monotonically to
4..12 (second conjunct). -/
theorem c6_period_gap_filling :
    (∀ (rows : List RowA) (i : Nat),
      (periodFillA (hasOTLabel rows) (initA rows))[i]?
        = ((initA rows)[i]?).map fun r =>
            { r with period := specPeriod (hasOTLabel rows) (initA rows) i r }) ∧
    (otLabels.map (fun s => otReplace (.str s))
      = [.num 4, .num 5, .num 6, .num 7, .num 8, .num 9, .num 10, .num 11, .num 12]) :=
  ⟨fun rows i => periodFillA_getElem? (hasOTLabel rows) (initA rows) i, by decide⟩

/-! ### Coordinate transform bounds (claim C7) -/

theorem abs_atan2_le_pi (y x : ℝ) : |atan2 y x| ≤ Real.pi := by
  have hpi := Real.pi_pos
  have hub := Real.arctan_lt_pi_div_two (y / x)
  have hlb := Real.neg_pi_div_two_lt_arctan (y / x)
  unfold atan2
  split_ifs with h1 h2 h3 h4 h5
  · rw [abs_le]
    constructor <;> linarith
  · have hyx : y / x ≤ 0 := div_nonpos_of_nonneg_of_nonpos h3 (le_of_lt h2)
    have harc : Real.arctan (y / x) ≤ 0 := by
      have := Real.arctan_strictMono.monotone hyx
      rwa [Real.arctan_zero] at this
    rw [abs_le]
    constructor <;> linarith
  · have hyx : 0 ≤ y / x := le_of_lt (div_pos_of_neg_of_neg (lt_of_not_le h3) h2)
    have harc : 0 ≤ Real.arctan (y / x) := by
      have := Real.arctan_strictMono.monotone hyx
      rwa [Real.arctan_zero] at this
    rw [abs_le]
    constructor <;> linarith
  · rw [abs_le]
    constructor <;> linarith
  · rw [abs_le]
    constructor <;> linarith
  · rw [abs_le]
    constructor <;> linarith

theorem atan2_nonneg_le_half_pi (y x : ℝ) (hy : 0 ≤ y) (hx : 0 ≤ x) :
    0 ≤ atan2 y x ∧ atan2 y x ≤ Real.pi / 2 := by
  have hpi := Real.pi_pos
  have hub := Real.arctan_lt_pi_div_two (y / x)
  by_cases h1 : 0 < x
  · have hyx : 0 ≤ y / x := div_nonneg hy (le_of_lt h1)
    have harc : 0 ≤ Real.arctan (y / x) := by
      have := Real.arctan_strictMono.monotone hyx
      rwa [Real.arctan_zero] at this
    unfold atan2
    rw [if_pos h1]
    exact ⟨harc, le_of_lt hub⟩
  · have hx0 : ¬ x < 0 := not_lt.mpr hx
    by_cases h4 : 0 < y
    · unfold atan2
      rw [if_neg h1, if_neg hx0, if_pos h4]
      constructor <;> linarith
    · have hy0 : ¬ y < 0 := not_lt.mpr hy
      unfold atan2
      rw [if_neg h1, if_neg hx0, if_neg h4, if_neg hy0]
      constructor <;> linarith

theorem abs_degrees_le_180 (t : ℝ) (h : |t| ≤ Real.pi) : |degrees t| ≤ 180 := by
  have hpi := Real.pi_pos
  have hc : (0:ℝ) ≤ 180 / Real.pi := div_nonneg (by norm_num) (le_of_lt hpi)
  have h1 : |degrees t| = |t| * (180 / Real.pi) := by
    rw [degrees, abs_mul, abs_of_nonneg hc]
  rw [h1]
  calc |t| * (180 / Real.pi) ≤ Real.pi * (180 / Real.pi) :=
        mul_le_mul_of_nonneg_right h hc
    _ = 180 := by
        rw [mul_comm, div_mul_cancel₀]
        exact Real.pi_ne_zero

theorem degrees_mem_of_half_pi {t : ℝ} (h0 : 0 ≤ t) (h1 : t ≤ Real.pi / 2) :
    0 ≤ degrees t ∧ degrees t ≤ 90 := by
  have hpi := Real.pi_pos
  have hc : (0:ℝ) ≤ 180 / Real.pi := div_nonneg (by norm_num) (le_of_lt hpi)
  constructor
  · exact mul_nonneg h0 hc
  · calc t * (180 / Real.pi) ≤ (Real.pi / 2) * (180 / Real.pi) :=
        mul_le_mul_of_nonneg_right h1 hc
      _ = 90 := by
        field_simp
        ring

theorem round2_nonneg {t : ℝ} (h : 0 ≤ t) : 0 ≤ round2 t := by
  unfold round2
  have h1 : (0:ℤ) ≤ round (100 * t) := by
    rw [round_eq]
    exact Int.floor_nonneg.mpr (by linarith)
  have h2 : (0:ℝ) ≤ ((round (100 * t) : ℤ) : ℝ) := by exact_mod_cast h1
  exact div_nonneg h2 (by norm_num)

theorem round2_le_intCast {t : ℝ} {k : ℤ} (h : t ≤ (k : ℝ)) : round2 t ≤ (k : ℝ) := by
  unfold round2
  have hhalf : (⌊(1/2 : ℝ)⌋ : ℤ) = 0 := by
    rw [Int.floor_eq_zero_iff]
    constructor <;> norm_num
  have h1 : round (100 * t) ≤ 100 * k := by
    rw [round_eq]
    have hle : (100:ℝ) * t + 1/2 ≤ ((100 * k : ℤ) : ℝ) + 1/2 := by
      push_cast
      linarith
    calc ⌊(100:ℝ) * t + 1/2⌋ ≤ ⌊((100 * k : ℤ) : ℝ) + 1/2⌋ := Int.floor_le_floor hle
      _ = 100 * k + ⌊(1/2 : ℝ)⌋ := Int.floor_int_add _ _
      _ = 100 * k := by rw [hhalf, add_zero]
  have h2 : ((round (100 * t) : ℤ) : ℝ) ≤ ((100 * k : ℤ) : ℝ) := by exact_mod_cast h1
  calc ((round (100 * t) : ℤ) : ℝ) / 100 ≤ ((100 * k : ℤ) : ℝ) / 100 :=
        (div_le_div_iff_of_pos_right (by norm_num : (0:ℝ) < 100)).mpr h2
    _ = (k : ℝ) := by push_cast; ring

/-- Claim C7: for both wire families, whenever both raw coordinates are
non-null the derived shot distance is ≥ 0 and the derived shot angle lies
in [0, 180] degrees; whenever either raw coordinate is null both derived
fields are null (the transforms are total functions — they never raise). -/
theorem c7_coord_bounds_and_null :
    (∀ (home xl yl : Option ℚ) (x y : ℚ), xl = some x → yl = some y →
      ∃ d a, faCoordDerived home xl yl = (some d, some a) ∧ 0 ≤ d ∧ 0 ≤ a ∧ a ≤ 180) ∧
    (∀ (home xl yl : Option ℚ), xl = none ∨ yl = none →
      faCoordDerived home xl yl = (none, none)) ∧
    (∀ (xl yl : Option ℚ) (x y : ℚ), xl = some x → yl = some y →
      ∃ d a, fbCoordDerived xl yl = (some d, some a) ∧ 0 ≤ d ∧ 0 ≤ a ∧ a ≤ 180) ∧
    (∀ (xl yl : Option ℚ), xl = none ∨ yl = none → fbCoordDerived xl yl = (none, none)) := by
  refine ⟨?_, ?_, ?_, ?_⟩
  · intro home xl yl x y hx hy
    subst hx
    subst hy
    refine ⟨_, _, rfl, ?_, ?_, ?_⟩
    · exact div_nonneg (Real.sqrt_nonneg _) (by norm_num)
    · exact abs_nonneg _
    · exact abs_degrees_le_180 _ (abs_atan2_le_pi _ _)
  · intro home xl yl h
    rcases h with rfl | rfl
    · rfl
    · cases xl <;> rfl
  · intro xl yl x y hx hy
    subst hx
    subst hy
    have hang := atan2_nonneg_le_half_pi
      |round2 ((y : ℝ) / 400 * 85) - 42.5| |round2 ((x : ℝ) / 850 * 200) - 100|
      (abs_nonneg _) (abs_nonneg _)
    have hdeg := degrees_mem_of_half_pi hang.1 hang.2
    refine ⟨_, _, rfl, ?_, ?_, ?_⟩
    · exact round2_nonneg (Real.sqrt_nonneg _)
    · exact round2_nonneg hdeg.1
    · have h90 : round2 (degrees (atan2
          |round2 ((y : ℝ) / 400 * 85) - 42.5| |round2 ((x : ℝ) / 850 * 200) - 100|))
          ≤ ((90 : ℤ) : ℝ) := round2_le_intCast (by exact_mod_cast hdeg.2)
      have : ((90 : ℤ) : ℝ) ≤ 180 := by norm_num
      linarith
  · intro xl yl h
    rcases h with rfl | rfl
    · rfl
    · cases xl <;> rfl

/-- Claim C7 witness: the family-A transform at home coordinates
`(550, 150)` yields in-range derived fields, and the family-B transform
propagates a null x to null outputs. -/
theorem c7_coord_bounds_witness :
    (∃ d a, faCoordDerived (some 1) (some 550) (some 150) = (some d, some a) ∧
      0 ≤ d ∧ 0 ≤ a ∧ a ≤ 180) ∧
    fbCoordDerived none (some 100) = (none, none) :=
  ⟨c7_coord_bounds_and_null.1 (some 1) (some 550) (some 150) 550 150 rfl rfl,
   c7_coord_bounds_and_null.2.2.2 none (some 100) (Or.inl rfl)⟩

end ScraperNHL
